import Mathlib

/-!
# Verification of the composable-fetcher request-execution core

A shallow embedding of `src/functions/composable-fetcher.functions.ts`
(the implementation half of `composable-fetcher.functions.test.ts`,
lines 910-1095): `resolveHeaders`, `toError`, `hasErrorString`,
`decodeErrorBody`, and the `execute` pipeline produced by
`createComposableFetcherFunctions`, together with the data model from
`entity/composable-fetcher.interfaces.ts`.

Modelling conventions:
* JavaScript values that can flow through request/response bodies are the
  inductive `Jval` (with an explicit `undef` constructor, since the code
  distinguishes `undefined` from `null`); JS objects are field lists with
  unique keys in insertion order.
* Standard Schemas are validation functions `Jval → StandardResult`
  (the `'~standard'.version/validate` wrapper and the sync/async
  distinction are collapsed: the core always awaits validation).
* The injected `fetch` is an oracle `Nat → TransportOutcome`, indexed by
  the number of transport calls made so far in the execution, so a single
  execution (original attempt plus the optional retry) is deterministic.
* All externally observable actions of one `execute` call are recorded in
  an event log (`Ev`): each transport invocation, each `response.json()`
  body read, each span handed to the observability sink, and each
  invocation of the catch (recovery) handler.
* The catch handler is modelled as a pure decision `FetchError →
  HookAction`: either resolve with a value (returning `undefined` /
  `void` is the value `Jval.undef`, matching the
  `if (result === undefined) return Promise.resolve(undefined)` line), or
  invoke the provided `retry` function once with optional replacement
  headers and return its result — the shapes exercised by the
  repository's tests and documentation.
* Wall-clock time is outside the model: `durationMs` is recorded as `0`
  (no claim constrains it).
-/

/-- A JavaScript value as it can appear in request/response bodies.
`undef` is JS `undefined` (distinct from `null`); `obj` is an object with
its fields in insertion order (keys unique). -/
inductive Jval where
  | undef : Jval
  | null : Jval
  | bool (b : Bool) : Jval
  | num (n : Int) : Jval
  | str (s : String) : Jval
  | arr (elems : List Jval) : Jval
  | obj (fields : List (String × Jval)) : Jval

/-- JS property access on an object field list (keys are unique, so the
first match is the field). -/
def objGet : List (String × Jval) → String → Option Jval
  | [], _ => none
  | (k, v) :: rest, key => if k = key then some v else objGet rest key

/-- The string value of a `error`-named field, when the value is a
non-null object carrying a string-typed `error` field (the body shape
recognized by `hasErrorString`, lines 947-951). -/
def errorField : Jval → Option String
  | Jval.obj fields =>
      match objGet fields "error" with
      | some (Jval.str s) => some s
      | _ => none
  | _ => none

/-- Predicate `hasErrorString` (lines 947-951): the raw body is a non-null object
whose `error` property is a string. Arrays, strings, numbers, `null` and
`undefined` all fail the `typeof data === 'object' && data !== null`
and `'error' in data` tests. -/
def hasErrorString (data : Jval) : Bool :=
  (errorField data).isSome

/-- Result of a Standard Schema validation: either a (possibly
transformed) value, or a list of issue messages.  The code only tests
`result.issues` for presence, so presence of the `issues` constructor is
failure regardless of the list. -/
inductive StandardResult where
  | value (v : Jval) : StandardResult
  | issues (msgs : List String) : StandardResult

/-- A Standard Schema, collapsed to its validation entry point. -/
structure StandardSchema where
  validate : Jval → StandardResult

/-- Lower-case hex digit, used for JSON `\u00XX` control-character
escapes. -/
def hexDigit (n : Nat) : Char :=
  if n < 10 then Char.ofNat (48 + n) else Char.ofNat (87 + n)

/-- JSON escaping of one character, as `JSON.stringify` performs it. -/
def escapeChar (c : Char) : String :=
  if c = '"' then "\\\""
  else if c = '\\' then "\\\\"
  else if c = '\n' then "\\n"
  else if c = '\t' then "\\t"
  else if c = '\r' then "\\r"
  else if c.toNat = 8 then "\\b"
  else if c.toNat = 12 then "\\f"
  else if c.toNat < 32 then
    "\\u00" ++ String.singleton (hexDigit (c.toNat / 16))
      ++ String.singleton (hexDigit (c.toNat % 16))
  else String.singleton c

/-- A JSON string literal for `s`, quoted and escaped. -/
def quoteJson (s : String) : String :=
  "\"" ++ String.join (s.toList.map escapeChar) ++ "\""

mutual

/-- Model of `JSON.stringify` on the modelled value domain.  The core only applies
it to defined bodies (`body !== undefined`); inside arrays `undefined`
serializes as `null` and object fields with `undefined` values are
omitted, as in JS. -/
def stringify : Jval → String
  | Jval.undef => "null"
  | Jval.null => "null"
  | Jval.bool b => if b then "true" else "false"
  | Jval.num n => toString n
  | Jval.str s => quoteJson s
  | Jval.arr xs => "[" ++ stringifyElems xs ++ "]"
  | Jval.obj fs => "\x7b" ++ stringifyFields fs ++ "\x7d"

/-- Comma-separated serialization of array elements. -/
def stringifyElems : List Jval → String
  | [] => ""
  | [x] => stringify x
  | x :: y :: rest => stringify x ++ "," ++ stringifyElems (y :: rest)

/-- Comma-separated serialization of object fields, skipping fields whose
value is `undefined`. -/
def stringifyFields : List (String × Jval) → String
  | [] => ""
  | (k, v) :: rest =>
      match v with
      | Jval.undef => stringifyFields rest
      | v =>
          let s := quoteJson k ++ ":" ++ stringify v
          let r := stringifyFields rest
          if r = "" then s else s ++ "," ++ r

end

/-- A header map: a JS object with string values, fields in insertion
order with unique keys. -/
abbrev Headers := List (String × String)

/-- Header (JS property) lookup: first match, keys being unique. -/
def getHeader : Headers → String → Option String
  | [], _ => none
  | (k, v) :: rest, key => if k = key then some v else getHeader rest key

/-- One JS property assignment `target[k] = v`: an existing key keeps its
position and gets the new value, a fresh key is appended. -/
def setHeader : Headers → String → String → Headers
  | [], k, v => [(k, v)]
  | (a, b) :: rest, k, v =>
      if a = k then (k, v) :: rest else (a, b) :: setHeader rest k v

/-- Layer assignment `Object.assign(target, layer)`: assign each of the layer's entries in
order. -/
def assignLayer (m : Headers) (layer : Headers) : Headers :=
  layer.foldl (fun acc p => setHeader acc p.1 p.2) m

/-- Function `resolveHeaders` (lines 925-929): start from the base map containing
exactly `Accept: application/json`, then `Object.assign` each supplied
layer in argument order (later layers overwrite identically-named keys);
`undefined` layers are skipped.  The variadic argument list is modelled
as a `List` of optional layers. -/
def resolveHeaders (layers : List (Option Headers)) : Headers :=
  layers.foldl
    (fun acc layer =>
      match layer with
      | none => acc
      | some l => assignLayer acc l)
    [("Accept", "application/json")]

/-- The Classified Error (`FetchError` in
`entity/composable-fetcher.interfaces.ts`): a closed tagged union of
`network`, `http` and `parse` variants. -/
inductive FetchError where
  | network (message : String) : FetchError
  | http (status : Nat) (statusText : String) (message : String)
      (data : Option Jval) : FetchError
  | parse (message : String) (issues : List String) : FetchError

/-- The `type` discriminant string of a `FetchError`. -/
def FetchError.type : FetchError → String
  | FetchError.network _ => "network"
  | FetchError.http _ _ _ _ => "http"
  | FetchError.parse _ _ => "parse"

/-- The `message` field common to all `FetchError` variants. -/
def FetchError.message : FetchError → String
  | FetchError.network m => m
  | FetchError.http _ _ m _ => m
  | FetchError.parse m _ => m

/-- The language-native throwable produced by `toError`: an `Error` with
its `message`, its `name` tag, and the original `FetchError` attached as
the `fetchError` field. -/
structure ThrownError where
  message : String
  name : String
  fetchError : FetchError

/-- Function `toError` (lines 935-940): wrap a `FetchError` into a throwable with
`message = fe.message`, `name = "FetchError." + fe.type` and
`fetchError = fe`. -/
def toError (fe : FetchError) : ThrownError :=
  { message := fe.message
    name := "FetchError." ++ fe.type
    fetchError := fe }

/-- Result of `decodeErrorBody`: a human-readable message and the decoded
error data, when any. -/
structure DecodedError where
  message : String
  data : Option Jval := none

/-- Function `decodeErrorBody` (lines 953-974).  With no error schema: the body's
string-typed `error` field when present, else the fallback, no data.
With an error schema: the fallback and no data when validation reports
issues; otherwise the extractor applied to the decoded value (or the
fallback when no extractor is supplied) together with the decoded value
as data. -/
def decodeErrorBody (data : Jval) (fallback : String)
    (errorSchema : Option StandardSchema)
    (errorMessage : Option (Jval → String)) : DecodedError :=
  match errorSchema with
  | none =>
      match errorField data with
      | some s => { message := s }
      | none => { message := fallback }
  | some schema =>
      match schema.validate data with
      | StandardResult.issues _ => { message := fallback }
      | StandardResult.value v =>
          { message :=
              match errorMessage with
              | some f => f v
              | none => fallback
            data := some v }

/-- The operation kind tag `'query' | 'mutate'`. -/
inductive Op where
  | query : Op
  | mutate : Op

/-- The observability event (`SpanEvent`).  `durationMs` is
`Math.round(performance.now() - start)` in the source; wall-clock time is
outside this model and the field is recorded as `0`. -/
structure SpanEvent where
  name : String
  op : Op
  url : String
  method : String
  status : Option Nat := none
  durationMs : Nat
  ok : Bool
  error : Option FetchError := none

/-- Options accepted by the `retry` function handed to the catch
handler. -/
structure RequestOptions where
  headers : Option Headers := none

/-- The observable decision of a catch (recovery) handler on a given
error: resolve with a value (`Jval.undef` models returning `undefined` /
`void`), or call the provided `retry` function once — with optional
replacement headers — and return its result. -/
inductive HookAction where
  | value (v : Jval) : HookAction
  | retry (headers : Option Headers) : HookAction

/-- A catch handler, modelled as a pure decision per error. -/
def CatchHandler : Type := FetchError → HookAction

/-- Behavior of one transport (`fetch`) invocation: either the call
throws/rejects with an `Error` carrying `message`, or it yields a
response with its `ok` flag, numeric status, status text, and the result
of its `json()` body parse (`none` when `json()` rejects, which the code
maps to `undefined` via `.catch(() => undefined)`). -/
inductive TransportOutcome where
  | throwErr (message : String) : TransportOutcome
  | respond (ok : Bool) (status : Nat) (statusText : String)
      (jsonBody : Option Jval) : TransportOutcome

/-- The injected transport function, as an oracle over the index of the
transport call within one execution. -/
def Transport : Type := Nat → TransportOutcome

/-- The arguments of one transport invocation, as `execute` passes them
(lines 1035-1041): `body` is the JSON-serialized body exactly when the
descriptor's body is defined. -/
structure TransportCall where
  url : String
  method : String
  headers : Headers
  body : Option String
  credentials : String
  cache : String

/-- One entry of the observable event log of an execution. -/
inductive Ev where
  /-- The transport function was invoked with these arguments. -/
  | transportCall (c : TransportCall) : Ev
  /-- `response.json()` was invoked on the obtained response. -/
  | bodyRead : Ev
  /-- A span event was handed to the configured observability sink. -/
  | span (e : SpanEvent) : Ev
  /-- The catch handler was invoked with this error. -/
  | hookInvoked (e : FetchError) : Ev

/-- The injected dependencies (`ComposableFetcherDependencies`),
flattened: `fetch`, `onSpan`, `catch` and `errorMessage` are
`d.sideEffects.*`, `errorSchema` is `d.data.errorSchema`.  The
observability sink itself is outside the model, so only its presence is
kept (`Option Unit`). -/
structure Deps where
  fetch : Transport
  onSpan : Option Unit := none
  catchFn : Option CatchHandler := none
  errorMessage : Option (Jval → String) := none
  errorSchema : Option StandardSchema := none

/-- The request descriptor (`ExecuteParams`).  `catchFn` is the source's
`catch` field (a reserved word here); `body` is `Jval.undef` when the
descriptor carries no body. -/
structure ExecuteParams where
  url : String
  method : String
  op : Op
  name : String
  fallback : String
  headers : Headers
  body : Jval := Jval.undef
  schema : Option StandardSchema := none
  credentials : String := "include"
  cache : String := "no-store"
  errorSchema : Option StandardSchema := none
  errorMessage : Option (Jval → String) := none
  onSpan : Option Unit := none
  catchFn : Option CatchHandler := none
  isRetry : Bool := false

/-- Resolution `params.onSpan ?? d.sideEffects.onSpan` (line 999). -/
def resolvedOnSpan (d : Deps) (p : ExecuteParams) : Option Unit :=
  match p.onSpan with
  | some u => some u
  | none => d.onSpan

/-- Resolution `params.catch ?? d.sideEffects.catch` (line 1000). -/
def resolvedCatch (d : Deps) (p : ExecuteParams) : Option CatchHandler :=
  match p.catchFn with
  | some h => some h
  | none => d.catchFn

/-- Resolution `params.errorSchema ?? d.data.errorSchema` (line 1001). -/
def resolvedErrorSchema (d : Deps) (p : ExecuteParams) :
    Option StandardSchema :=
  match p.errorSchema with
  | some s => some s
  | none => d.errorSchema

/-- Resolution `params.errorMessage ?? d.sideEffects.errorMessage` (line 1002). -/
def resolvedErrorMessage (d : Deps) (p : ExecuteParams) :
    Option (Jval → String) :=
  match p.errorMessage with
  | some f => some f
  | none => d.errorMessage

/-- The descriptor of the retried attempt built by the `retry` function
handed to the catch handler (lines 1020-1025): the original params with
headers remerged through `resolveHeaders(headers, retryOptions?.headers)`
and `isRetry` forced `true`. -/
def retryParams (p : ExecuteParams) (retryHeaders : Option Headers) :
    ExecuteParams :=
  { p with
    headers := resolveHeaders [some p.headers, retryHeaders]
    isRetry := true }

/-- The span events handed to the sink for one attempt outcome: one event
when a sink is configured, none otherwise (the `onSpan?.(...)` call,
lines 1006-1015). -/
def spanEvents (d : Deps) (p : ExecuteParams) (status : Option Nat)
    (ok : Bool) (error : Option FetchError) : List Ev :=
  match resolvedOnSpan d p with
  | some _ =>
      [Ev.span
        { name := p.name, op := p.op, url := p.url, method := p.method
          status := status, durationMs := 0, ok := ok, error := error }]
  | none => []

/-- The transport-call arguments built from the descriptor
(lines 1035-1041). -/
def transportCallOf (p : ExecuteParams) : TransportCall :=
  { url := p.url
    method := p.method
    headers := p.headers
    body :=
      match p.body with
      | Jval.undef => none
      | b => some (stringify b)
    credentials := p.credentials
    cache := p.cache }

/-- One attempt of `execute` up to (but not including) `handleError`
(lines 1032-1091): invoke the transport, classify the outcome, decode
bodies, and emit the span.  Returns the successful value or the
Classified Error, the events of the attempt in order, and the next
transport-call index. -/
def attemptStep (d : Deps) (p : ExecuteParams) (n : Nat) :
    (Jval ⊕ FetchError) × List Ev × Nat :=
  match d.fetch n with
  | TransportOutcome.throwErr detail =>
      let e := FetchError.network ("Network error: " ++ detail)
      (Sum.inr e,
        Ev.transportCall (transportCallOf p) :: spanEvents d p none false (some e),
        n + 1)
  | TransportOutcome.respond ok status statusText jsonBody =>
      if ok then
        match p.schema with
        | none =>
            (Sum.inl Jval.undef,
              Ev.transportCall (transportCallOf p)
                :: spanEvents d p (some status) true none,
              n + 1)
        | some schema =>
            let data := match jsonBody with
              | some v => v
              | none => Jval.undef
            match schema.validate data with
            | StandardResult.issues msgs =>
                let e := FetchError.parse "Unexpected response format" msgs
                (Sum.inr e,
                  Ev.transportCall (transportCallOf p) :: Ev.bodyRead
                    :: spanEvents d p (some status) false (some e),
                  n + 1)
            | StandardResult.value v =>
                (Sum.inl v,
                  Ev.transportCall (transportCallOf p) :: Ev.bodyRead
                    :: spanEvents d p (some status) true none,
                  n + 1)
      else
        let rawData := match jsonBody with
          | some v => v
          | none => Jval.undef
        let decoded := decodeErrorBody rawData p.fallback
          (resolvedErrorSchema d p) (resolvedErrorMessage d p)
        let e := FetchError.http status statusText decoded.message decoded.data
        (Sum.inr e,
          Ev.transportCall (transportCallOf p) :: Ev.bodyRead
            :: spanEvents d p (some status) false (some e),
          n + 1)

/-- The outcome of an execution: resolve with a value (`Jval.undef` for
`undefined`) or reject with a thrown error. -/
inductive ExecResult where
  | ok (v : Jval) : ExecResult
  | thrown (e : ThrownError) : ExecResult

/-- The recursive `execute` call made by the `retry` function.  Its
params always carry `isRetry = true` (forced by `retryParams`), so its
`handleError` throws any Classified Error at line 1018 without consulting
the catch handler; the pipeline therefore reduces to one attempt whose
failure escalates (see `executeFrom_of_isRetry` below for the
equivalence with the general pipeline). -/
def executeRetried (d : Deps) (p : ExecuteParams) (n : Nat) :
    ExecResult × List Ev × Nat :=
  match attemptStep d p n with
  | (Sum.inl v, log, n') => (ExecResult.ok v, log, n')
  | (Sum.inr e, log, n') => (ExecResult.thrown (toError e), log, n')

/-- The full `execute` pipeline (lines 984-1092) from transport-call
index `n`: run one attempt; on a Classified Error run `handleError`
(lines 1017-1030): throw `toError error` when this attempt is a retry or
no catch handler is configured, otherwise invoke the handler, resolving
with its value or with the result of the retried attempt it requested. -/
def executeFrom (d : Deps) (p : ExecuteParams) (n : Nat) :
    ExecResult × List Ev × Nat :=
  match attemptStep d p n with
  | (Sum.inl v, log, n') => (ExecResult.ok v, log, n')
  | (Sum.inr e, log, n') =>
      if p.isRetry then (ExecResult.thrown (toError e), log, n')
      else
        match resolvedCatch d p with
        | none => (ExecResult.thrown (toError e), log, n')
        | some h =>
            match h e with
            | HookAction.value v =>
                (ExecResult.ok v, log ++ [Ev.hookInvoked e], n')
            | HookAction.retry retryHeaders =>
                match executeRetried d (retryParams p retryHeaders) n' with
                | (r, log2, n2) => (r, log ++ Ev.hookInvoked e :: log2, n2)

/-- Function `execute(params)`: the pipeline started at transport-call index `0`,
returning the outcome and the event log. -/
def execute (d : Deps) (p : ExecuteParams) : ExecResult × List Ev :=
  ((executeFrom d p 0).1, (executeFrom d p 0).2.1)

/-- Number of transport invocations recorded in a log. -/
def countCalls (log : List Ev) : Nat :=
  log.countP fun e =>
    match e with
    | Ev.transportCall _ => true
    | _ => false

/-- Number of span events handed to the observability sink in a log. -/
def countSpans (log : List Ev) : Nat :=
  log.countP fun e =>
    match e with
    | Ev.span _ => true
    | _ => false

/-- Number of catch-handler invocations recorded in a log. -/
def countHooks (log : List Ev) : Nat :=
  log.countP fun e =>
    match e with
    | Ev.hookInvoked _ => true
    | _ => false

theorem attemptStep_calls (d : Deps) (p : ExecuteParams) (n : Nat) :
    countCalls (attemptStep d p n).2.1 = 1 := by
  rcases hf : d.fetch n with detail | ⟨ok, status, st, jb⟩
  · rcases ho : resolvedOnSpan d p with _ | ⟨⟩ <;>
      simp [attemptStep, spanEvents, hf, ho, countCalls]
  · cases ok
    · rcases ho : resolvedOnSpan d p with _ | ⟨⟩ <;>
        simp [attemptStep, spanEvents, hf, ho, countCalls]
    · rcases hs : p.schema with _ | s
      · rcases ho : resolvedOnSpan d p with _ | ⟨⟩ <;>
          simp [attemptStep, spanEvents, hf, ho, hs, countCalls]
      · rcases jb with _ | v
        · rcases hv : s.validate Jval.undef with v' | msgs <;>
            rcases ho : resolvedOnSpan d p with _ | ⟨⟩ <;>
            simp [attemptStep, spanEvents, hf, ho, hs, hv, countCalls]
        · rcases hv : s.validate v with v' | msgs <;>
            rcases ho : resolvedOnSpan d p with _ | ⟨⟩ <;>
            simp [attemptStep, spanEvents, hf, ho, hs, hv, countCalls]

theorem attemptStep_next (d : Deps) (p : ExecuteParams) (n : Nat) :
    (attemptStep d p n).2.2 = n + 1 := by
  rcases hf : d.fetch n with detail | ⟨ok, status, st, jb⟩
  · simp [attemptStep, hf]
  · cases ok
    · simp [attemptStep, hf]
    · rcases hs : p.schema with _ | sc
      · simp [attemptStep, hf, hs]
      · rcases jb with _ | v
        · rcases hv : sc.validate Jval.undef with v2 | msgs <;>
            simp [attemptStep, hf, hs, hv]
        · rcases hv : sc.validate v with v2 | msgs <;>
            simp [attemptStep, hf, hs, hv]

theorem attemptStep_hooks (d : Deps) (p : ExecuteParams) (n : Nat) :
    countHooks (attemptStep d p n).2.1 = 0 := by
  rcases hf : d.fetch n with detail | ⟨ok, status, st, jb⟩
  · rcases ho : resolvedOnSpan d p with _ | ⟨⟩ <;>
      simp [attemptStep, spanEvents, hf, ho, countHooks]
  · cases ok
    · rcases ho : resolvedOnSpan d p with _ | ⟨⟩ <;>
        simp [attemptStep, spanEvents, hf, ho, countHooks]
    · rcases hs : p.schema with _ | s
      · rcases ho : resolvedOnSpan d p with _ | ⟨⟩ <;>
          simp [attemptStep, spanEvents, hf, ho, hs, countHooks]
      · rcases jb with _ | v
        · rcases hv : s.validate Jval.undef with v' | msgs <;>
            rcases ho : resolvedOnSpan d p with _ | ⟨⟩ <;>
            simp [attemptStep, spanEvents, hf, ho, hs, hv, countHooks]
        · rcases hv : s.validate v with v' | msgs <;>
            rcases ho : resolvedOnSpan d p with _ | ⟨⟩ <;>
            simp [attemptStep, spanEvents, hf, ho, hs, hv, countHooks]

theorem attemptStep_no_hookInvoked (d : Deps) (p : ExecuteParams) (n : Nat)
    (e : FetchError) : Ev.hookInvoked e ∉ (attemptStep d p n).2.1 := by
  have h := attemptStep_hooks d p n
  unfold countHooks at h
  rw [List.countP_eq_zero] at h
  intro hmem
  have := h _ hmem
  simp at this

theorem attemptStep_spans (d : Deps) (p : ExecuteParams) (n : Nat)
    (h : resolvedOnSpan d p = some ()) :
    countSpans (attemptStep d p n).2.1 = 1 := by
  rcases hf : d.fetch n with detail | ⟨ok, status, st, jb⟩
  · simp [attemptStep, spanEvents, hf, h, countSpans]
  · cases ok
    · simp [attemptStep, spanEvents, hf, h, countSpans]
    · rcases hs : p.schema with _ | s
      · simp [attemptStep, spanEvents, hf, h, hs, countSpans]
      · rcases jb with _ | v
        · rcases hv : s.validate Jval.undef with v' | msgs <;>
            simp [attemptStep, spanEvents, hf, h, hs, hv, countSpans]
        · rcases hv : s.validate v with v' | msgs <;>
            simp [attemptStep, spanEvents, hf, h, hs, hv, countSpans]

theorem attemptStep_head (d : Deps) (p : ExecuteParams) (n : Nat) :
    ∃ rest, (attemptStep d p n).2.1
      = Ev.transportCall (transportCallOf p) :: rest := by
  rcases hf : d.fetch n with detail | ⟨ok, status, st, jb⟩
  · rcases ho : resolvedOnSpan d p with _ | ⟨⟩ <;>
      simp [attemptStep, spanEvents, hf, ho]
  · cases ok
    · rcases ho : resolvedOnSpan d p with _ | ⟨⟩ <;>
        simp [attemptStep, spanEvents, hf, ho]
    · rcases hs : p.schema with _ | s
      · rcases ho : resolvedOnSpan d p with _ | ⟨⟩ <;>
          simp [attemptStep, spanEvents, hf, ho, hs]
      · rcases jb with _ | v
        · rcases hv : s.validate Jval.undef with v' | msgs <;>
            rcases ho : resolvedOnSpan d p with _ | ⟨⟩ <;>
            simp [attemptStep, spanEvents, hf, ho, hs, hv]
        · rcases hv : s.validate v with v' | msgs <;>
            rcases ho : resolvedOnSpan d p with _ | ⟨⟩ <;>
            simp [attemptStep, spanEvents, hf, ho, hs, hv]

theorem attemptStep_err_span (d : Deps) (p : ExecuteParams) (n : Nat)
    (e : FetchError) (hr : (attemptStep d p n).1 = Sum.inr e)
    (h : resolvedOnSpan d p = some ()) :
    ∃ pre sp, (attemptStep d p n).2.1 = pre ++ [Ev.span sp] ∧
      sp.ok = false ∧ sp.error = some e := by
  rcases hf : d.fetch n with detail | ⟨ok, status, st, jb⟩
  · simp [attemptStep, spanEvents, hf, h] at hr ⊢
    subst hr
    exact ⟨[Ev.transportCall (transportCallOf p)], _, rfl, rfl, rfl⟩
  · cases ok
    · simp [attemptStep, spanEvents, hf, h] at hr ⊢
      subst hr
      exact ⟨[Ev.transportCall (transportCallOf p), Ev.bodyRead], _, rfl, rfl, rfl⟩
    · rcases hs : p.schema with _ | s
      · simp [attemptStep, spanEvents, hf, h, hs] at hr
      · rcases jb with _ | v
        · rcases hv : s.validate Jval.undef with v' | msgs
          · simp [attemptStep, spanEvents, hf, h, hs, hv] at hr
          · simp [attemptStep, spanEvents, hf, h, hs, hv] at hr ⊢
            subst hr
            exact ⟨[Ev.transportCall (transportCallOf p), Ev.bodyRead], _, rfl, rfl, rfl⟩
        · rcases hv : s.validate v with v' | msgs
          · simp [attemptStep, spanEvents, hf, h, hs, hv] at hr
          · simp [attemptStep, spanEvents, hf, h, hs, hv] at hr ⊢
            subst hr
            exact ⟨[Ev.transportCall (transportCallOf p), Ev.bodyRead], _, rfl, rfl, rfl⟩

theorem attemptStep_span_mem (d : Deps) (p : ExecuteParams) (n : Nat)
    (sp : SpanEvent) (hmem : Ev.span sp ∈ (attemptStep d p n).2.1) :
    (sp.error = none → sp.ok = true) ∧
    (∀ e, sp.error = some e → sp.ok = false ∧
      ((sp.status = none) ↔ ∃ m, e = FetchError.network m) ∧
      (attemptStep d p n).1 = Sum.inr e) := by
  rcases hf : d.fetch n with detail | ⟨ok, status, st, jb⟩
  · rcases ho : resolvedOnSpan d p with _ | ⟨⟩ <;>
      simp [attemptStep, spanEvents, hf, ho] at hmem ⊢ <;>
      subst hmem <;> simp [attemptStep, hf]
  · cases ok
    · rcases ho : resolvedOnSpan d p with _ | ⟨⟩ <;>
        simp [attemptStep, spanEvents, hf, ho] at hmem ⊢ <;>
        subst hmem <;> simp [attemptStep, spanEvents, hf, ho]
    · rcases hs : p.schema with _ | s
      · rcases ho : resolvedOnSpan d p with _ | ⟨⟩ <;>
          simp [attemptStep, spanEvents, hf, ho, hs] at hmem ⊢ <;>
          subst hmem <;> simp
      · rcases jb with _ | v
        · rcases hv : s.validate Jval.undef with v' | msgs <;>
            rcases ho : resolvedOnSpan d p with _ | ⟨⟩ <;>
            simp [attemptStep, spanEvents, hf, ho, hs, hv] at hmem ⊢ <;>
            subst hmem <;> simp [attemptStep, spanEvents, hf, ho, hs, hv]
        · rcases hv : s.validate v with v' | msgs <;>
            rcases ho : resolvedOnSpan d p with _ | ⟨⟩ <;>
            simp [attemptStep, spanEvents, hf, ho, hs, hv] at hmem ⊢ <;>
            subst hmem <;> simp [attemptStep, spanEvents, hf, ho, hs, hv]

theorem executeRetried_log (d : Deps) (p : ExecuteParams) (n : Nat) :
    (executeRetried d p n).2.1 = (attemptStep d p n).2.1 := by
  rcases ha : attemptStep d p n with ⟨v | e, log, n'⟩ <;> simp [executeRetried, ha]

theorem executeFrom_of_isRetry (d : Deps) (p : ExecuteParams) (n : Nat)
    (h : p.isRetry = true) : executeFrom d p n = executeRetried d p n := by
  rcases ha : attemptStep d p n with ⟨v | e, log, n'⟩ <;>
    simp [executeFrom, executeRetried, ha, h]

theorem executeFrom_cases (d : Deps) (p : ExecuteParams) (n : Nat) :
    (∃ v log n', attemptStep d p n = (Sum.inl v, log, n') ∧
        executeFrom d p n = (ExecResult.ok v, log, n')) ∨
    (∃ e log n', attemptStep d p n = (Sum.inr e, log, n') ∧
        (p.isRetry = true ∨ resolvedCatch d p = none) ∧
        executeFrom d p n = (ExecResult.thrown (toError e), log, n')) ∨
    (∃ e log n' h v, attemptStep d p n = (Sum.inr e, log, n') ∧
        p.isRetry = false ∧ resolvedCatch d p = some h ∧
        h e = HookAction.value v ∧
        executeFrom d p n = (ExecResult.ok v, log ++ [Ev.hookInvoked e], n')) ∨
    (∃ e log n' h hs, attemptStep d p n = (Sum.inr e, log, n') ∧
        p.isRetry = false ∧ resolvedCatch d p = some h ∧
        h e = HookAction.retry hs ∧
        executeFrom d p n = ((executeRetried d (retryParams p hs) n').1,
          log ++ Ev.hookInvoked e :: (executeRetried d (retryParams p hs) n').2.1,
          (executeRetried d (retryParams p hs) n').2.2)) := by
  rcases ha : attemptStep d p n with ⟨v | e, log, n'⟩
  · exact Or.inl ⟨v, log, n', rfl, by simp [executeFrom, ha]⟩
  · cases hR : p.isRetry
    · rcases hc : resolvedCatch d p with _ | h
      · exact Or.inr (Or.inl ⟨e, log, n', rfl, Or.inr rfl,
          by simp [executeFrom, ha, hR, hc]⟩)
      · rcases hh : h e with v | hs
        · exact Or.inr (Or.inr (Or.inl ⟨e, log, n', h, v, rfl, rfl, rfl, hh,
            by simp [executeFrom, ha, hR, hc, hh]⟩))
        · refine Or.inr (Or.inr (Or.inr ⟨e, log, n', h, hs, rfl, rfl, rfl, hh, ?_⟩))
          rcases hx : executeRetried d (retryParams p hs) n' with ⟨r, log2, n2⟩
          simp [executeFrom, ha, hR, hc, hh, hx]
    · exact Or.inr (Or.inl ⟨e, log, n', rfl, Or.inl rfl,
        by simp [executeFrom, ha, hR]⟩)

theorem hook_not_mem_of_countHooks (l : List Ev) (h : countHooks l = 0)
    (x : FetchError) : Ev.hookInvoked x ∉ l := by
  unfold countHooks at h
  rw [List.countP_eq_zero] at h
  intro hm
  have := h _ hm
  simp at this

theorem hook_unique_split (l1 l2 pre post : List Ev) (e e' : FetchError)
    (h1 : ∀ x, Ev.hookInvoked x ∉ l1) (h2 : ∀ x, Ev.hookInvoked x ∉ l2)
    (heq : l1 ++ Ev.hookInvoked e :: l2 = pre ++ Ev.hookInvoked e' :: post) :
    pre = l1 ∧ e' = e ∧ post = l2 := by
  induction l1 generalizing pre
  case nil =>
    cases pre
    case nil =>
      simp at heq
      exact ⟨rfl, heq.1.symm, heq.2.symm⟩
    case cons x pre' =>
      simp at heq
      exact absurd (heq.2 ▸ (by simp : Ev.hookInvoked e' ∈ pre' ++ Ev.hookInvoked e' :: post))
        (h2 e')
  case cons y l1' ih =>
    cases pre
    case nil =>
      simp at heq
      exact absurd (heq.1 ▸ List.mem_cons_self _ _) (h1 e')
    case cons x pre' =>
      simp at heq
      obtain ⟨hxy, heq'⟩ := heq
      obtain ⟨hp, he, hpost⟩ := ih pre' (fun z hz => h1 z (List.mem_cons_of_mem _ hz)) heq'
      exact ⟨by rw [hxy, hp], he, hpost⟩

theorem resolvedOnSpan_retryParams (d : Deps) (p : ExecuteParams)
    (hs : Option Headers) :
    resolvedOnSpan d (retryParams p hs) = resolvedOnSpan d p := rfl

/-- The value of the last binding of `key` in one header layer (later
bindings of the same key overwrite earlier ones when the layer is
assigned entry by entry). -/
def lastVal : Headers → String → Option String
  | [], _ => none
  | (k, v) :: rest, key =>
      match lastVal rest key with
      | some w => some w
      | none => if k = key then some v else none

/-- The value assigned to `key` by the last layer that supplies it,
across an ordered list of optional layers. -/
def layersLast : List (Option Headers) → String → Option String
  | [], _ => none
  | layer :: rest, key =>
      match layersLast rest key with
      | some w => some w
      | none =>
          match layer with
          | none => none
          | some l => lastVal l key

theorem getHeader_setHeader (m : Headers) (k v key : String) :
    getHeader (setHeader m k v) key
      = if key = k then some v else getHeader m key := by
  induction m
  case nil =>
    by_cases hk : key = k <;> simp [setHeader, getHeader, hk, Ne.symm]
  case cons q rest ih =>
    rcases q with ⟨a, b⟩
    by_cases hak : a = k
    · subst hak
      by_cases hk : key = a <;> simp [setHeader, getHeader, hk, Ne.symm]
    · by_cases hakey : a = key
      · subst hakey
        simp [setHeader, getHeader, hak, Ne.symm hak]
      · simp [setHeader, getHeader, hak, hakey, ih]

theorem getHeader_assignLayer (m layer : Headers) (key : String) :
    getHeader (assignLayer m layer) key
      = match lastVal layer key with
        | some w => some w
        | none => getHeader m key := by
  induction layer generalizing m
  case nil => rfl
  case cons q rest ih =>
    rcases q with ⟨k, v⟩
    show getHeader (assignLayer (setHeader m k v) rest) key = _
    rw [ih]
    rcases hl : lastVal rest key with _ | w
    · simp only [lastVal, hl]
      rw [getHeader_setHeader]
      by_cases hk : key = k
      · subst hk
        simp
      · simp [hk, Ne.symm hk]
    · simp [lastVal, hl]

theorem getHeader_resolveFoldl (layers : List (Option Headers))
    (m : Headers) (key : String) :
    getHeader
        (layers.foldl
          (fun acc layer =>
            match layer with
            | none => acc
            | some l => assignLayer acc l)
          m)
        key
      = match layersLast layers key with
        | some w => some w
        | none => getHeader m key := by
  induction layers generalizing m
  case nil => rfl
  case cons layer rest ih =>
    rcases layer with _ | l
    · show getHeader (rest.foldl _ m) key = _
      rw [ih]
      rcases hl : layersLast rest key with _ | w <;> simp [layersLast, hl]
    · show getHeader (rest.foldl _ (assignLayer m l)) key = _
      rw [ih]
      rcases hl : layersLast rest key with _ | w
      · simp only [layersLast, hl]
        exact getHeader_assignLayer m l key
      · simp [layersLast, hl]

theorem countCalls_append (l1 l2 : List Ev) :
    countCalls (l1 ++ l2) = countCalls l1 + countCalls l2 := by
  unfold countCalls
  exact List.countP_append _ _ _

theorem countSpans_append (l1 l2 : List Ev) :
    countSpans (l1 ++ l2) = countSpans l1 + countSpans l2 := by
  unfold countSpans
  exact List.countP_append _ _ _

theorem countHooks_append (l1 l2 : List Ev) :
    countHooks (l1 ++ l2) = countHooks l1 + countHooks l2 := by
  unfold countHooks
  exact List.countP_append _ _ _

theorem countCalls_hook_cons (e : FetchError) (l : List Ev) :
    countCalls (Ev.hookInvoked e :: l) = countCalls l := by
  simp [countCalls]

theorem countSpans_hook_cons (e : FetchError) (l : List Ev) :
    countSpans (Ev.hookInvoked e :: l) = countSpans l := by
  simp [countSpans]

theorem countHooks_hook_cons (e : FetchError) (l : List Ev) :
    countHooks (Ev.hookInvoked e :: l) = countHooks l + 1 := by
  simp [countHooks, Nat.add_comm]

theorem countCalls_hook_single (e : FetchError) :
    countCalls [Ev.hookInvoked e] = 0 := by
  simp [countCalls]

theorem countSpans_hook_single (e : FetchError) :
    countSpans [Ev.hookInvoked e] = 0 := by
  simp [countSpans]

theorem countHooks_hook_single (e : FetchError) :
    countHooks [Ev.hookInvoked e] = 1 := by
  simp [countHooks]

theorem executeFrom_calls_le (d : Deps) (p : ExecuteParams) (n : Nat) :
    countCalls (executeFrom d p n).2.1 <= 2 := by
  rcases executeFrom_cases d p n with
      ⟨v, log, n', ha, he⟩ | ⟨e, log, n', ha, _, he⟩ |
      ⟨e, log, n', h, v, ha, _, _, _, he⟩ | ⟨e, log, n', h, hs, ha, _, _, _, he⟩ <;>
    have hc := attemptStep_calls d p n <;> rw [ha] at hc <;> simp at hc
  · rw [he]
    show countCalls log <= 2
    omega
  · rw [he]
    show countCalls log <= 2
    omega
  · rw [he]
    show countCalls (log ++ [Ev.hookInvoked e]) <= 2
    rw [countCalls_append, hc, countCalls_hook_single]
    omega
  · rw [he]
    show countCalls (log ++ Ev.hookInvoked e :: (executeRetried d (retryParams p hs) n').2.1) <= 2
    have hc2 := attemptStep_calls d (retryParams p hs) n'
    rw [← executeRetried_log] at hc2
    rw [countCalls_append, hc, countCalls_hook_cons, hc2]

theorem executeFrom_spans_eq_calls (d : Deps) (p : ExecuteParams) (n : Nat)
    (ho : resolvedOnSpan d p = some ()) :
    countSpans (executeFrom d p n).2.1 = countCalls (executeFrom d p n).2.1 := by
  rcases executeFrom_cases d p n with
      ⟨v, log, n', ha, he⟩ | ⟨e, log, n', ha, _, he⟩ |
      ⟨e, log, n', h, v, ha, _, _, _, he⟩ | ⟨e, log, n', h, hs, ha, _, _, _, he⟩ <;>
    have hc := attemptStep_calls d p n <;>
    have hsp := attemptStep_spans d p n ho <;>
    rw [ha] at hc hsp <;> simp at hc hsp
  · rw [he]
    show countSpans log = countCalls log
    rw [hc, hsp]
  · rw [he]
    show countSpans log = countCalls log
    rw [hc, hsp]
  · rw [he]
    show countSpans (log ++ [Ev.hookInvoked e]) = countCalls (log ++ [Ev.hookInvoked e])
    rw [countCalls_append, countSpans_append, hc, hsp,
      countCalls_hook_single, countSpans_hook_single]
  · rw [he]
    show countSpans (log ++ Ev.hookInvoked e :: (executeRetried d (retryParams p hs) n').2.1)
      = countCalls (log ++ Ev.hookInvoked e :: (executeRetried d (retryParams p hs) n').2.1)
    have hor : resolvedOnSpan d (retryParams p hs) = some () := by
      rw [resolvedOnSpan_retryParams]
      exact ho
    have hc2 := attemptStep_calls d (retryParams p hs) n'
    have hsp2 := attemptStep_spans d (retryParams p hs) n' hor
    rw [← executeRetried_log] at hc2 hsp2
    rw [countCalls_append, countSpans_append, hc, hsp,
      countCalls_hook_cons, countSpans_hook_cons, hc2, hsp2]

theorem attemptStep_res_hooks (d : Deps) (p : ExecuteParams) (n : Nat)
    (res : Jval ⊕ FetchError) (log : List Ev) (n' : Nat)
    (ha : attemptStep d p n = (res, log, n')) (x : FetchError) :
    Ev.hookInvoked x ∉ log := by
  have h := attemptStep_hooks d p n
  rw [ha] at h
  exact hook_not_mem_of_countHooks log h x

theorem executeFrom_hooks_le (d : Deps) (p : ExecuteParams) (n : Nat) :
    countHooks (executeFrom d p n).2.1 <= 1 := by
  rcases executeFrom_cases d p n with
      ⟨v, log, n', ha, he⟩ | ⟨e, log, n', ha, _, he⟩ |
      ⟨e, log, n', h, v, ha, _, _, _, he⟩ | ⟨e, log, n', h, hs, ha, _, _, _, he⟩ <;>
    have hc := attemptStep_hooks d p n <;> rw [ha] at hc <;> simp at hc
  · rw [he]
    show countHooks log <= 1
    omega
  · rw [he]
    show countHooks log <= 1
    omega
  · rw [he]
    show countHooks (log ++ [Ev.hookInvoked e]) <= 1
    rw [countHooks_append, hc, countHooks_hook_single]
  · rw [he]
    show countHooks (log ++ Ev.hookInvoked e :: (executeRetried d (retryParams p hs) n').2.1) <= 1
    have hc2 := attemptStep_hooks d (retryParams p hs) n'
    rw [← executeRetried_log] at hc2
    rw [countHooks_append, hc, countHooks_hook_cons, hc2]

theorem executeFrom_hook_ordering (d : Deps) (p : ExecuteParams) (n : Nat)
    (ho : resolvedOnSpan d p = some ()) (pre post : List Ev) (e : FetchError)
    (hsplit : (executeFrom d p n).2.1 = pre ++ Ev.hookInvoked e :: post) :
    ∃ sp, Ev.span sp ∈ pre ∧ sp.ok = false ∧ sp.error = some e := by
  rcases executeFrom_cases d p n with
      ⟨v, log, n', ha, he⟩ | ⟨e', log, n', ha, _, he⟩ |
      ⟨e', log, n', h, v, ha, _, _, _, he⟩ | ⟨e', log, n', h, hs, ha, _, _, _, he⟩
  · rw [he] at hsplit
    have hsplit2 : log = pre ++ Ev.hookInvoked e :: post := hsplit
    exact absurd (hsplit2 ▸ (by simp : Ev.hookInvoked e ∈ pre ++ Ev.hookInvoked e :: post))
      (attemptStep_res_hooks d p n _ log n' ha e)
  · rw [he] at hsplit
    have hsplit2 : log = pre ++ Ev.hookInvoked e :: post := hsplit
    exact absurd (hsplit2 ▸ (by simp : Ev.hookInvoked e ∈ pre ++ Ev.hookInvoked e :: post))
      (attemptStep_res_hooks d p n _ log n' ha e)
  · rw [he] at hsplit
    have hsplit' : log ++ Ev.hookInvoked e' :: ([] : List Ev)
        = pre ++ Ev.hookInvoked e :: post := hsplit
    obtain ⟨hpre, hee, hpost⟩ := hook_unique_split log [] pre post e' e
      (attemptStep_res_hooks d p n _ log n' ha) (by simp) hsplit'
    obtain ⟨pre0, sp, hlog, hok, herr⟩ := attemptStep_err_span d p n e'
      (by rw [ha]) ho
    rw [ha] at hlog
    simp at hlog
    refine ⟨sp, ?_, hok, by rw [herr, hee]⟩
    rw [hpre, hlog]
    simp
  · rw [he] at hsplit
    have hsplit' : log ++ Ev.hookInvoked e'
          :: (executeRetried d (retryParams p hs) n').2.1
        = pre ++ Ev.hookInvoked e :: post := hsplit
    obtain ⟨hpre, hee, hpost⟩ := hook_unique_split log _ pre post e' e
      (attemptStep_res_hooks d p n _ log n' ha)
      (by
        rw [executeRetried_log]
        exact attemptStep_res_hooks d (retryParams p hs) n' _ _ _ rfl)
      hsplit'
    obtain ⟨pre0, sp, hlog, hok, herr⟩ := attemptStep_err_span d p n e'
      (by rw [ha]) ho
    rw [ha] at hlog
    simp at hlog
    refine ⟨sp, ?_, hok, by rw [herr, hee]⟩
    rw [hpre, hlog]
    simp

theorem executeFrom_thrown_span (d : Deps) (p : ExecuteParams) (n : Nat)
    (ho : resolvedOnSpan d p = some ()) (err : ThrownError)
    (ht : (executeFrom d p n).1 = ExecResult.thrown err) :
    ∃ sp, Ev.span sp ∈ (executeFrom d p n).2.1 ∧ sp.ok = false ∧
      sp.error = some err.fetchError := by
  rcases executeFrom_cases d p n with
      ⟨v, log, n', ha, he⟩ | ⟨e', log, n', ha, _, he⟩ |
      ⟨e', log, n', h, v, ha, _, _, _, he⟩ | ⟨e', log, n', h, hs, ha, _, _, _, he⟩
  · rw [he] at ht
    exact absurd ht (by simp)
  · rw [he] at ht
    have ht2 : ExecResult.thrown (toError e') = ExecResult.thrown err := ht
    have herr : err = toError e' := by
      cases ht2
      rfl
    obtain ⟨pre0, sp, hlog, hok, hspe⟩ := attemptStep_err_span d p n e'
      (by rw [ha]) ho
    rw [ha] at hlog
    simp at hlog
    refine ⟨sp, ?_, hok, ?_⟩
    · rw [he]
      show Ev.span sp ∈ log
      rw [hlog]
      simp
    · rw [hspe, herr]
      rfl
  · rw [he] at ht
    exact absurd ht (by simp)
  · rw [he] at ht
    have ht2 : (executeRetried d (retryParams p hs) n').1 = ExecResult.thrown err := ht
    rcases ha2 : attemptStep d (retryParams p hs) n' with ⟨v2 | e2, log2, n2⟩
    · rw [executeRetried, ha2] at ht2
      exact absurd ht2 (by simp)
    · rw [executeRetried, ha2] at ht2
      simp at ht2
      have hor : resolvedOnSpan d (retryParams p hs) = some () := by
        rw [resolvedOnSpan_retryParams]
        exact ho
      obtain ⟨pre0, sp, hlog, hok, hspe⟩ := attemptStep_err_span d
        (retryParams p hs) n' e2 (by rw [ha2]) hor
      rw [ha2] at hlog
      simp at hlog
      refine ⟨sp, ?_, hok, ?_⟩
      · rw [he]
        show Ev.span sp
          ∈ log ++ Ev.hookInvoked e' :: (executeRetried d (retryParams p hs) n').2.1
        rw [executeRetried_log, ha2]
        simp only [List.mem_append, List.mem_cons]
        refine Or.inr (Or.inr ?_)
        show Ev.span sp ∈ log2
        rw [hlog]
        simp
      · rw [hspe, ← ht2]
        rfl

theorem attemptStep_span_mem_fields (d : Deps) (p : ExecuteParams) (n : Nat)
    (sp : SpanEvent) (hmem : Ev.span sp ∈ (attemptStep d p n).2.1) :
    (sp.error = none → sp.ok = true) ∧
    (∀ e, sp.error = some e → sp.ok = false ∧
      ((sp.status = none) ↔ ∃ m, e = FetchError.network m)) := by
  obtain ⟨h1, h2⟩ := attemptStep_span_mem d p n sp hmem
  exact ⟨h1, fun e he => ⟨(h2 e he).1, (h2 e he).2.1⟩⟩

theorem executeFrom_span_fields (d : Deps) (p : ExecuteParams) (n : Nat)
    (sp : SpanEvent) (hmem : Ev.span sp ∈ (executeFrom d p n).2.1) :
    (sp.error = none → sp.ok = true) ∧
    (∀ e, sp.error = some e → sp.ok = false ∧
      ((sp.status = none) ↔ ∃ m, e = FetchError.network m)) := by
  rcases executeFrom_cases d p n with
      ⟨v, log, n', ha, he⟩ | ⟨e', log, n', ha, _, he⟩ |
      ⟨e', log, n', h, v, ha, _, _, _, he⟩ | ⟨e', log, n', h, hs, ha, _, _, _, he⟩
  · rw [he] at hmem
    have hmem2 : Ev.span sp ∈ log := hmem
    refine attemptStep_span_mem_fields d p n sp ?_
    rw [ha]
    exact hmem2
  · rw [he] at hmem
    have hmem2 : Ev.span sp ∈ log := hmem
    refine attemptStep_span_mem_fields d p n sp ?_
    rw [ha]
    exact hmem2
  · rw [he] at hmem
    have hmem2 : Ev.span sp ∈ log ++ [Ev.hookInvoked e'] := hmem
    simp only [List.mem_append, List.mem_singleton] at hmem2
    rcases hmem2 with hmem2 | hmem2
    · refine attemptStep_span_mem_fields d p n sp ?_
      rw [ha]
      exact hmem2
    · exact absurd hmem2 (by simp)
  · rw [he] at hmem
    have hmem2 : Ev.span sp
        ∈ log ++ Ev.hookInvoked e' :: (executeRetried d (retryParams p hs) n').2.1 := hmem
    rw [executeRetried_log] at hmem2
    simp only [List.mem_append, List.mem_cons] at hmem2
    rcases hmem2 with hmem2 | hmem2 | hmem2
    · refine attemptStep_span_mem_fields d p n sp ?_
      rw [ha]
      exact hmem2
    · exact absurd hmem2 (by simp)
    · exact attemptStep_span_mem_fields d (retryParams p hs) n' sp hmem2

theorem executeFrom_mem_attempt (d : Deps) (p : ExecuteParams) (n : Nat)
    (x : Ev) (hx : x ∈ (attemptStep d p n).2.1) :
    x ∈ (executeFrom d p n).2.1 := by
  rcases executeFrom_cases d p n with
      ⟨v, log, n', ha, he⟩ | ⟨e', log, n', ha, _, he⟩ |
      ⟨e', log, n', h, v, ha, _, _, _, he⟩ | ⟨e', log, n', h, hs, ha, _, _, _, he⟩ <;>
    rw [ha] at hx <;> simp at hx <;> rw [he]
  · exact hx
  · exact hx
  · show x ∈ log ++ [Ev.hookInvoked e']
    simp [hx]
  · show x ∈ log ++ Ev.hookInvoked e' :: (executeRetried d (retryParams p hs) n').2.1
    simp [hx]

/-- C5: `decodeErrorBody` is total (it never fails) and returns exactly:
with no error schema, the body's string-typed `error` field as message
with no data when present, else the fallback with no data; with an error
schema, the fallback and no data when validation reports issues, and
otherwise the extractor applied to the decoded value (or the fallback
when no extractor is supplied) as message with the decoded value as
data. -/
theorem decodeErrorBody_spec (data : Jval) (fallback : String)
    (errorMessage : Option (Jval → String)) :
    (∀ s, errorField data = some s →
        decodeErrorBody data fallback none errorMessage
          = { message := s, data := none }) ∧
    (errorField data = none →
        decodeErrorBody data fallback none errorMessage
          = { message := fallback, data := none }) ∧
    (∀ sch msgs, sch.validate data = StandardResult.issues msgs →
        decodeErrorBody data fallback (some sch) errorMessage
          = { message := fallback, data := none }) ∧
    (∀ sch v, sch.validate data = StandardResult.value v →
        decodeErrorBody data fallback (some sch) errorMessage
          = { message :=
                match errorMessage with
                | some f => f v
                | none => fallback
              data := some v }) := by
  refine ⟨?_, ?_, ?_, ?_⟩
  · intro s hs
    simp [decodeErrorBody, hs]
  · intro h
    simp [decodeErrorBody, h]
  · intro sch msgs hv
    simp [decodeErrorBody, hv]
  · intro sch v hv
    rcases errorMessage with _ | f <;> simp [decodeErrorBody, hv]

/-- Witness for C5 at the concrete bodies exercised by the repository's
tests: `{ error: "Not allowed" }` with no schema, an empty object with no
schema, a mismatching schema, and a matching schema with an extractor. -/
theorem decodeErrorBody_spec_witness :
    decodeErrorBody (Jval.obj [("error", Jval.str "Not allowed")])
        "fallback msg" none none
      = { message := "Not allowed", data := none } ∧
    decodeErrorBody (Jval.obj []) "Something went wrong" none none
      = { message := "Something went wrong", data := none } ∧
    decodeErrorBody (Jval.obj [("something", Jval.str "unexpected")])
        "Request failed"
        (some ⟨fun _ => StandardResult.issues ["not matching"]⟩) none
      = { message := "Request failed", data := none } ∧
    decodeErrorBody (Jval.str "payload") "Validation failed"
        (some ⟨fun v => StandardResult.value v⟩)
        (some (fun _ => "invalid email"))
      = { message := "invalid email", data := some (Jval.str "payload") } :=
  ⟨(decodeErrorBody_spec _ _ _).1 "Not allowed" rfl,
   (decodeErrorBody_spec _ _ _).2.1 rfl,
   (decodeErrorBody_spec _ _ _).2.2.1 _ ["not matching"] rfl,
   (decodeErrorBody_spec _ _ _).2.2.2 _ (Jval.str "payload") rfl⟩

/-- C8: `resolveHeaders` merges the layers over the base map whose only
entry is `Accept: application/json`: a key resolves to the value given by
the last layer that supplies it (later layers overwrite earlier ones,
undefined layers skipped), and otherwise to the default acceptance entry,
which is therefore always present unless some layer supplies that exact
key. -/
theorem resolveHeaders_merge (layers : List (Option Headers)) (key : String) :
    (getHeader (resolveHeaders layers) key
      = match layersLast layers key with
        | some w => some w
        | none => if key = "Accept" then some "application/json" else none) ∧
    (layersLast layers "Accept" = none →
      getHeader (resolveHeaders layers) "Accept" = some "application/json") := by
  have hbase : ∀ k, getHeader [("Accept", "application/json")] k
      = if k = "Accept" then some "application/json" else none := by
    intro k
    by_cases hk : k = "Accept" <;> simp [getHeader, hk, Ne.symm]
  constructor
  · show getHeader (resolveHeaders layers) key = _
    unfold resolveHeaders
    rw [getHeader_resolveFoldl]
    rcases hl : layersLast layers key with _ | w <;> simp [hl, hbase key]
  · intro h
    unfold resolveHeaders
    rw [getHeader_resolveFoldl]
    simp [h, hbase]

/-- Witness for C8: with an authorization layer and a skipped undefined
layer, the default acceptance header survives, and a layer supplying
`Accept` overwrites it. -/
theorem resolveHeaders_merge_witness :
    getHeader (resolveHeaders [some [("Authorization", "Bearer old")], none])
        "Accept" = some "application/json" ∧
    getHeader (resolveHeaders [some [("Accept", "text/html")]]) "Accept"
      = some "text/html" :=
  ⟨(resolveHeaders_merge [some [("Authorization", "Bearer old")], none]
      "Accept").2 rfl,
   (resolveHeaders_merge [some [("Accept", "text/html")]] "Accept").1⟩

/-- C9: the descriptor of the retried attempt is identical to the
original in every field except two — its headers are the Header Resolver
merge of the original headers with the replacement headers (replacement
wins on conflicting keys, per `resolveHeaders_merge`) and its retry flag
is `true`; and the retried attempt launched by the catch handler's retry
request runs `execute` exactly on that descriptor. -/
theorem retryParams_frame (p : ExecuteParams) (hs : Option Headers) :
    ((retryParams p hs).url = p.url ∧ (retryParams p hs).method = p.method ∧
     (retryParams p hs).op = p.op ∧ (retryParams p hs).name = p.name ∧
     (retryParams p hs).fallback = p.fallback ∧
     (retryParams p hs).body = p.body ∧
     (retryParams p hs).schema = p.schema ∧
     (retryParams p hs).credentials = p.credentials ∧
     (retryParams p hs).cache = p.cache ∧
     (retryParams p hs).errorSchema = p.errorSchema ∧
     (retryParams p hs).errorMessage = p.errorMessage ∧
     (retryParams p hs).onSpan = p.onSpan ∧
     (retryParams p hs).catchFn = p.catchFn) ∧
    (retryParams p hs).headers = resolveHeaders [some p.headers, hs] ∧
    (retryParams p hs).isRetry = true ∧
    (∀ d n e log n' h, attemptStep d p n = (Sum.inr e, log, n') →
      p.isRetry = false → resolvedCatch d p = some h →
      h e = HookAction.retry hs →
      executeFrom d p n = ((executeRetried d (retryParams p hs) n').1,
        log ++ Ev.hookInvoked e :: (executeRetried d (retryParams p hs) n').2.1,
        (executeRetried d (retryParams p hs) n').2.2)) := by
  refine ⟨⟨rfl, rfl, rfl, rfl, rfl, rfl, rfl, rfl, rfl, rfl, rfl, rfl, rfl⟩,
    rfl, rfl, ?_⟩
  intro d n e log n' h ha hR hc hh
  rcases hx : executeRetried d (retryParams p hs) n' with ⟨r, log2, n2⟩
  simp [executeFrom, ha, hR, hc, hh, hx]

/-- Test fixture: the descriptor used by the repository's retry tests
(`GET /api/test` with an old bearer token). -/
def sampleRetryParams : ExecuteParams :=
  { url := "/api/test", method := "GET", op := Op.query, name := "test"
    fallback := "failed", headers := [("Authorization", "Bearer old-token")] }

/-- Witness for C9 at the repository's retry-with-new-headers scenario:
replacement headers `{ Authorization: "Bearer new-token" }` on a 401,
with the transport failing once and the retried attempt merged onto the
new token. -/
theorem retryParams_frame_witness :
    (retryParams sampleRetryParams
        (some [("Authorization", "Bearer new-token")])).headers
      = resolveHeaders [some [("Authorization", "Bearer old-token")],
          some [("Authorization", "Bearer new-token")]] ∧
    (retryParams sampleRetryParams
        (some [("Authorization", "Bearer new-token")])).isRetry = true ∧
    executeFrom
        { fetch := fun _ =>
            TransportOutcome.respond false 401 "Unauthorized" (some (Jval.obj []))
          catchFn := some (fun _ =>
            HookAction.retry (some [("Authorization", "Bearer new-token")])) }
        sampleRetryParams 0
      = ((executeRetried
            { fetch := fun _ =>
                TransportOutcome.respond false 401 "Unauthorized" (some (Jval.obj []))
              catchFn := some (fun _ =>
                HookAction.retry (some [("Authorization", "Bearer new-token")])) }
            (retryParams sampleRetryParams
              (some [("Authorization", "Bearer new-token")])) 1).1,
          (attemptStep
            { fetch := fun _ =>
                TransportOutcome.respond false 401 "Unauthorized" (some (Jval.obj []))
              catchFn := some (fun _ =>
                HookAction.retry (some [("Authorization", "Bearer new-token")])) }
            sampleRetryParams 0).2.1
            ++ Ev.hookInvoked
                (FetchError.http 401 "Unauthorized" "failed" none)
              :: (executeRetried
                  { fetch := fun _ =>
                      TransportOutcome.respond false 401 "Unauthorized"
                        (some (Jval.obj []))
                    catchFn := some (fun _ =>
                      HookAction.retry
                        (some [("Authorization", "Bearer new-token")])) }
                  (retryParams sampleRetryParams
                    (some [("Authorization", "Bearer new-token")])) 1).2.1,
          (executeRetried
              { fetch := fun _ =>
                  TransportOutcome.respond false 401 "Unauthorized"
                    (some (Jval.obj []))
                catchFn := some (fun _ =>
                  HookAction.retry
                    (some [("Authorization", "Bearer new-token")])) }
              (retryParams sampleRetryParams
                (some [("Authorization", "Bearer new-token")])) 1).2.2) := by
  refine ⟨(retryParams_frame sampleRetryParams _).2.1,
    (retryParams_frame sampleRetryParams _).2.2.1, ?_⟩
  exact (retryParams_frame sampleRetryParams
      (some [("Authorization", "Bearer new-token")])).2.2.2
    { fetch := fun _ =>
        TransportOutcome.respond false 401 "Unauthorized" (some (Jval.obj []))
      catchFn := some (fun _ =>
        HookAction.retry (some [("Authorization", "Bearer new-token")])) }
    0 (FetchError.http 401 "Unauthorized" "failed" none) _ 1
    (fun _ => HookAction.retry (some [("Authorization", "Bearer new-token")]))
    rfl rfl rfl rfl

/-- C7: every execution's first recorded event is the transport
invocation, carrying exactly the descriptor's URL, method, headers,
credentials and cache options, and a body that is the JSON-text
serialization of the descriptor's body value if and only if that value
is defined (no body at all otherwise, regardless of method); concretely,
body `{"email":"a@b.com"}` is sent as the exact text
`{"email":"a@b.com"}` with key order preserved. -/
theorem execute_transport_args (d : Deps) (p : ExecuteParams) :
    (∃ rest, (execute d p).2
      = Ev.transportCall
          { url := p.url, method := p.method, headers := p.headers
            body :=
              match p.body with
              | Jval.undef => none
              | b => some (stringify b)
            credentials := p.credentials, cache := p.cache } :: rest) ∧
    (p.body = Jval.undef → (transportCallOf p).body = none) ∧
    stringify (Jval.obj [("email", Jval.str "a@b.com")])
      = "\x7b\"email\":\"a@b.com\"\x7d" := by
  refine ⟨?_, ?_, ?_⟩
  · obtain ⟨rest, hr⟩ := attemptStep_head d p 0
    rcases executeFrom_cases d p 0 with
        ⟨v, log, n', ha, he⟩ | ⟨e', log, n', ha, _, he⟩ |
        ⟨e', log, n', h, v, ha, _, _, _, he⟩ | ⟨e', log, n', h, hs, ha, _, _, _, he⟩ <;>
      rw [ha] at hr <;> simp at hr
    · exact ⟨rest, by
        show (executeFrom d p 0).2.1 = _
        rw [he]
        show log = _
        rw [hr]
        rfl⟩
    · exact ⟨rest, by
        show (executeFrom d p 0).2.1 = _
        rw [he]
        show log = _
        rw [hr]
        rfl⟩
    · exact ⟨rest ++ [Ev.hookInvoked e'], by
        show (executeFrom d p 0).2.1 = _
        rw [he]
        show log ++ [Ev.hookInvoked e'] = _
        rw [hr]
        rfl⟩
    · exact ⟨rest ++ Ev.hookInvoked e'
          :: (executeRetried d (retryParams p hs) 1).2.1, by
        show (executeFrom d p 0).2.1 = _
        rw [he]
        have hn : n' = 1 := by
          have := attemptStep_next d p 0
          rw [ha] at this
          simpa using this
        rw [hn]
        show log ++ Ev.hookInvoked e'
            :: (executeRetried d (retryParams p hs) 1).2.1 = _
        rw [hr]
        rfl⟩
  · intro hb
    simp [transportCallOf, hb]
  · rfl

/-- Witness for C7's conditional conjunct: a descriptor with no body
sends no body at all, even for a mutating method. -/
theorem execute_transport_args_witness :
    (transportCallOf
        { url := "/api/test", method := "POST", op := Op.mutate
          name := "test", fallback := "failed", headers := [] }).body
      = none :=
  (execute_transport_args { fetch := fun _ => TransportOutcome.throwErr "x" }
    { url := "/api/test", method := "POST", op := Op.mutate
      name := "test", fallback := "failed", headers := [] }).2.1 rfl

/-- C10: on a response whose success flag is true, a descriptor without a
response schema resolves to `undefined` without ever invoking the
response's `json()` body parse — the body of a schema-less successful
response is never read. -/
theorem execute_schemaless_skips_body (d : Deps) (p : ExecuteParams)
    (status : Nat) (st : String) (b : Option Jval)
    (hf : d.fetch 0 = TransportOutcome.respond true status st b)
    (hschema : p.schema = none) :
    (execute d p).1 = ExecResult.ok Jval.undef ∧
    Ev.bodyRead ∉ (execute d p).2 := by
  have ha : attemptStep d p 0
      = (Sum.inl Jval.undef,
        Ev.transportCall (transportCallOf p)
          :: spanEvents d p (some status) true none, 1) := by
    simp [attemptStep, hf, hschema]
  constructor
  · show (executeFrom d p 0).1 = _
    simp [executeFrom, ha]
  · show Ev.bodyRead ∉ (executeFrom d p 0).2.1
    simp only [executeFrom, ha]
    rcases ho : resolvedOnSpan d p with _ | ⟨⟩ <;> simp [spanEvents, ho]

/-- Witness for C10: a 200 response with an unreadable body (its `json()`
rejects) still resolves to `undefined` with no body read. -/
theorem execute_schemaless_skips_body_witness :
    (execute { fetch := fun _ => TransportOutcome.respond true 200 "OK" none }
        { url := "/api/test", method := "POST", op := Op.mutate
          name := "test", fallback := "failed", headers := [] }).1
      = ExecResult.ok Jval.undef ∧
    Ev.bodyRead ∉ (execute
        { fetch := fun _ => TransportOutcome.respond true 200 "OK" none }
        { url := "/api/test", method := "POST", op := Op.mutate
          name := "test", fallback := "failed", headers := [] }).2 :=
  execute_schemaless_skips_body _ _ 200 "OK" none rfl rfl

/-- C4: on a response whose success flag is true — with no response
schema, `execute` resolves with `undefined` and the event log is exactly
one transport call followed by one span with `ok = true` and the status;
with a response schema whose validation succeeds, `execute` resolves with
the validated (possibly transformed) value; with a response schema whose
validation reports issues, the attempt produces a Parse error whose
message is the fixed text `Unexpected response format` and whose issues
are the schema's issue messages verbatim, and escalation (retry flag or
no catch handler) rejects with exactly that converted error. -/
theorem execute_success_semantics (d : Deps) (p : ExecuteParams)
    (status : Nat) (st : String) (b : Option Jval)
    (hf : d.fetch 0 = TransportOutcome.respond true status st b) :
    (p.schema = none → resolvedOnSpan d p = some () →
      execute d p = (ExecResult.ok Jval.undef,
        [Ev.transportCall (transportCallOf p),
         Ev.span { name := p.name, op := p.op, url := p.url
                   method := p.method, status := some status
                   durationMs := 0, ok := true, error := none }])) ∧
    (∀ sch v, p.schema = some sch →
      sch.validate (match b with | some w => w | none => Jval.undef)
        = StandardResult.value v →
      (execute d p).1 = ExecResult.ok v) ∧
    (∀ sch msgs, p.schema = some sch →
      sch.validate (match b with | some w => w | none => Jval.undef)
        = StandardResult.issues msgs →
      (attemptStep d p 0).1
          = Sum.inr (FetchError.parse "Unexpected response format" msgs) ∧
      ((p.isRetry = true ∨ resolvedCatch d p = none) →
        (execute d p).1 = ExecResult.thrown
          (toError (FetchError.parse "Unexpected response format" msgs)))) := by
  refine ⟨?_, ?_, ?_⟩
  · intro hschema ho
    simp [execute, executeFrom, attemptStep, hf, hschema, spanEvents, ho]
  · intro sch v hschema hv
    show (executeFrom d p 0).1 = _
    simp [executeFrom, attemptStep, hf, hschema, hv]
  · intro sch msgs hschema hv
    constructor
    · simp [attemptStep, hf, hschema, hv]
    · intro hdisj
      show (executeFrom d p 0).1 = _
      rcases hdisj with hR | hc
      · simp [executeFrom, attemptStep, hf, hschema, hv, hR]
      · cases hR : p.isRetry <;>
          simp [executeFrom, attemptStep, hf, hschema, hv, hR, hc]

/-- Witness for C4: a 200 response with body `{"id":"1"}` — accepted
as-is by a pass-through schema the result is that value; rejected by a
failing schema the escalated error is the Parse error with the schema's
issue text; and with no schema at all the result is `undefined` with a
single success span. -/
theorem execute_success_semantics_witness :
    execute
        { fetch := fun _ => TransportOutcome.respond true 200 "OK"
            (some (Jval.obj [("id", Jval.str "1")]))
          onSpan := some () }
        { url := "/api/test", method := "GET", op := Op.query
          name := "test", fallback := "failed", headers := [] }
      = (ExecResult.ok Jval.undef,
        [Ev.transportCall
          { url := "/api/test", method := "GET", headers := [], body := none
            credentials := "include", cache := "no-store" },
         Ev.span { name := "test", op := Op.query, url := "/api/test"
                   method := "GET", status := some 200, durationMs := 0
                   ok := true, error := none }]) ∧
    (execute
        { fetch := fun _ => TransportOutcome.respond true 200 "OK"
            (some (Jval.obj [("id", Jval.str "1")])) }
        { url := "/api/test", method := "GET", op := Op.query
          name := "test", fallback := "failed", headers := []
          schema := some ⟨fun v => StandardResult.value v⟩ }).1
      = ExecResult.ok (Jval.obj [("id", Jval.str "1")]) ∧
    (execute
        { fetch := fun _ => TransportOutcome.respond true 200 "OK"
            (some (Jval.obj [("bad", Jval.str "data")])) }
        { url := "/api/test", method := "GET", op := Op.query
          name := "test", fallback := "failed", headers := []
          schema := some ⟨fun _ => StandardResult.issues ["expected string"]⟩ }).1
      = ExecResult.thrown
          (toError (FetchError.parse "Unexpected response format"
            ["expected string"])) :=
  ⟨(execute_success_semantics _ _ 200 "OK"
      (some (Jval.obj [("id", Jval.str "1")])) rfl).1 rfl rfl,
   (execute_success_semantics _ _ 200 "OK"
      (some (Jval.obj [("id", Jval.str "1")])) rfl).2.1 _
      (Jval.obj [("id", Jval.str "1")]) rfl rfl,
   ((execute_success_semantics _ _ 200 "OK"
      (some (Jval.obj [("bad", Jval.str "data")])) rfl).2.2 _
      ["expected string"] rfl rfl).2 (Or.inr rfl)⟩

/-- C6: when the transport itself throws/rejects (no response obtained),
a Network error is built whose message is `"Network error: "` followed by
the thrown error's message; the attempt's span has `ok = false`, no
status, and this error attached; and control proceeds to recovery with
this error — the catch handler receives it when one is configured on a
non-retry attempt, and otherwise the converted error is thrown. -/
theorem execute_network_failure (d : Deps) (p : ExecuteParams)
    (detail : String)
    (hf : d.fetch 0 = TransportOutcome.throwErr detail) :
    (attemptStep d p 0).1
      = Sum.inr (FetchError.network ("Network error: " ++ detail)) ∧
    (resolvedOnSpan d p = some () →
      Ev.span { name := p.name, op := p.op, url := p.url, method := p.method
                status := none, durationMs := 0, ok := false
                error := some (FetchError.network ("Network error: " ++ detail)) }
        ∈ (execute d p).2) ∧
    (p.isRetry = false → ∀ h, resolvedCatch d p = some h →
      Ev.hookInvoked (FetchError.network ("Network error: " ++ detail))
        ∈ (execute d p).2) ∧
    ((p.isRetry = true ∨ resolvedCatch d p = none) →
      (execute d p).1 = ExecResult.thrown
        (toError (FetchError.network ("Network error: " ++ detail)))) := by
  have ha : attemptStep d p 0
      = (Sum.inr (FetchError.network ("Network error: " ++ detail)),
        Ev.transportCall (transportCallOf p)
          :: spanEvents d p none false
              (some (FetchError.network ("Network error: " ++ detail))), 1) := by
    simp [attemptStep, hf]
  refine ⟨by rw [ha], ?_, ?_, ?_⟩
  · intro ho
    show _ ∈ (executeFrom d p 0).2.1
    refine executeFrom_mem_attempt d p 0 _ ?_
    rw [ha]
    simp [spanEvents, ho]
  · intro hR h hc
    show _ ∈ (executeFrom d p 0).2.1
    rcases hh : h (FetchError.network ("Network error: " ++ detail)) with v | hs
    · simp [executeFrom, ha, hR, hc, hh]
    · rcases hx : executeRetried d (retryParams p hs) 1 with ⟨r, log2, n2⟩
      simp [executeFrom, ha, hR, hc, hh, hx]
  · intro hdisj
    show (executeFrom d p 0).1 = _
    rcases hdisj with hR | hc
    · simp [executeFrom, ha, hR]
    · cases hR : p.isRetry <;> simp [executeFrom, ha, hR, hc]

/-- Witness for C6 at the repository's network-failure scenario: the
transport rejects with `Failed to fetch`; with an observability sink and
a swallowing catch handler the span and the hook invocation carry the
Network error, and with no handler the converted error is thrown. -/
theorem execute_network_failure_witness :
    Ev.span { name := "test", op := Op.query, url := "/api/test"
              method := "GET", status := none, durationMs := 0, ok := false
              error := some (FetchError.network "Network error: Failed to fetch") }
      ∈ (execute
          { fetch := fun _ => TransportOutcome.throwErr "Failed to fetch"
            onSpan := some ()
            catchFn := some (fun _ => HookAction.value Jval.undef) }
          { url := "/api/test", method := "GET", op := Op.query
            name := "test", fallback := "failed", headers := [] }).2 ∧
    Ev.hookInvoked (FetchError.network "Network error: Failed to fetch")
      ∈ (execute
          { fetch := fun _ => TransportOutcome.throwErr "Failed to fetch"
            onSpan := some ()
            catchFn := some (fun _ => HookAction.value Jval.undef) }
          { url := "/api/test", method := "GET", op := Op.query
            name := "test", fallback := "failed", headers := [] }).2 ∧
    (execute { fetch := fun _ => TransportOutcome.throwErr "Failed to fetch" }
        { url := "/api/test", method := "GET", op := Op.query
          name := "test", fallback := "failed", headers := [] }).1
      = ExecResult.thrown
          (toError (FetchError.network "Network error: Failed to fetch")) :=
  ⟨(execute_network_failure _ _ "Failed to fetch" rfl).2.1 rfl,
   (execute_network_failure _ _ "Failed to fetch" rfl).2.2.1 rfl _ rfl,
   (execute_network_failure _ _ "Failed to fetch" rfl).2.2.2 (Or.inr rfl)⟩

/-- C3: on an attempt that produced a Classified Error, exactly one of
three outcomes happens — on a non-retry attempt with a configured catch
handler, a handler resolving with no value makes `execute` resolve with
`undefined` (error swallowed); a handler resolving with a value makes
that value the result (error replaced); and when the attempt is a retry
or no handler is configured, `execute` rejects with a throwable whose
message equals the error's message, whose name is
`"FetchError." + type`, and which carries the original error as its
`fetchError` field. -/
theorem execute_error_outcomes (d : Deps) (p : ExecuteParams)
    (e : FetchError) (log : List Ev) (n' : Nat)
    (ha : attemptStep d p 0 = (Sum.inr e, log, n')) :
    (p.isRetry = false → ∀ h, resolvedCatch d p = some h →
      h e = HookAction.value Jval.undef →
      (execute d p).1 = ExecResult.ok Jval.undef) ∧
    (p.isRetry = false → ∀ h v, resolvedCatch d p = some h →
      h e = HookAction.value v → (execute d p).1 = ExecResult.ok v) ∧
    ((p.isRetry = true ∨ resolvedCatch d p = none) →
      (execute d p).1 = ExecResult.thrown
        { message := e.message, name := "FetchError." ++ e.type
          fetchError := e }) := by
  refine ⟨?_, ?_, ?_⟩
  · intro hR h hc hh
    show (executeFrom d p 0).1 = _
    simp [executeFrom, ha, hR, hc, hh]
  · intro hR h v hc hh
    show (executeFrom d p 0).1 = _
    simp [executeFrom, ha, hR, hc, hh]
  · intro hdisj
    show (executeFrom d p 0).1 = _
    rcases hdisj with hR | hc
    · simp [executeFrom, ha, hR, toError]
    · cases hR : p.isRetry <;> simp [executeFrom, ha, hR, hc, toError]

/-- Witness for C3 at the repository's scenarios: a 500 with a swallowing
handler resolves to `undefined`; a handler replacing the error with
`{"ok":true}` makes that the result; a 403 with body
`{ error: "Not allowed" }` and no handler throws a `FetchError.http`
throwable with that message and the original error attached. -/
theorem execute_error_outcomes_witness :
    (execute
        { fetch := fun _ => TransportOutcome.respond false 500 "ISE"
            (some (Jval.obj []))
          catchFn := some (fun _ => HookAction.value Jval.undef) }
        { url := "/api/test", method := "GET", op := Op.query
          name := "test", fallback := "server error", headers := [] }).1
      = ExecResult.ok Jval.undef ∧
    (execute
        { fetch := fun _ => TransportOutcome.respond false 500 "ISE"
            (some (Jval.obj []))
          catchFn := some (fun _ =>
            HookAction.value (Jval.obj [("ok", Jval.bool true)])) }
        { url := "/api/test", method := "GET", op := Op.query
          name := "test", fallback := "server error", headers := [] }).1
      = ExecResult.ok (Jval.obj [("ok", Jval.bool true)]) ∧
    (execute
        { fetch := fun _ => TransportOutcome.respond false 403 "Forbidden"
            (some (Jval.obj [("error", Jval.str "Not allowed")])) }
        { url := "/api/test", method := "GET", op := Op.query
          name := "test", fallback := "fallback msg", headers := [] }).1
      = ExecResult.thrown
          { message := "Not allowed", name := "FetchError.http"
            fetchError := FetchError.http 403 "Forbidden" "Not allowed" none } :=
  ⟨(execute_error_outcomes
      { fetch := fun _ => TransportOutcome.respond false 500 "ISE"
          (some (Jval.obj []))
        catchFn := some (fun _ => HookAction.value Jval.undef) }
      { url := "/api/test", method := "GET", op := Op.query
        name := "test", fallback := "server error", headers := [] }
      (FetchError.http 500 "ISE" "server error" none) _ 1 rfl).1
      rfl _ rfl rfl,
   (execute_error_outcomes
      { fetch := fun _ => TransportOutcome.respond false 500 "ISE"
          (some (Jval.obj []))
        catchFn := some (fun _ =>
          HookAction.value (Jval.obj [("ok", Jval.bool true)])) }
      { url := "/api/test", method := "GET", op := Op.query
        name := "test", fallback := "server error", headers := [] }
      (FetchError.http 500 "ISE" "server error" none) _ 1 rfl).2.1
      rfl _ (Jval.obj [("ok", Jval.bool true)]) rfl rfl,
   (execute_error_outcomes
      { fetch := fun _ => TransportOutcome.respond false 403 "Forbidden"
          (some (Jval.obj [("error", Jval.str "Not allowed")])) }
      { url := "/api/test", method := "GET", op := Op.query
        name := "test", fallback := "fallback msg", headers := [] }
      (FetchError.http 403 "Forbidden" "Not allowed" none) _ 1 rfl).2.2
      (Or.inr rfl)⟩

/-- C1: at most one retry occurs per original call — on an attempt whose
retry flag is already true the catch handler is never invoked and any
Classified Error escalates immediately as the converted throwable; every
execution makes at most 2 transport calls and invokes the catch handler
at most once; and concretely, a hook that
unconditionally requests retry against a transport failing with 401 on
every call makes exactly 2 transport calls, invokes the hook exactly
once, and rejects with the second HTTP error. -/
theorem execute_retry_bounded :
    (∀ (d : Deps) (p : ExecuteParams) (n : Nat),
      countHooks (executeFrom d { p with isRetry := true } n).2.1 = 0) ∧
    (∀ (d : Deps) (p : ExecuteParams) (n : Nat) e log n',
      p.isRetry = true → attemptStep d p n = (Sum.inr e, log, n') →
      executeFrom d p n = (ExecResult.thrown (toError e), log, n')) ∧
    (∀ (d : Deps) (p : ExecuteParams), countCalls (execute d p).2 <= 2) ∧
    (∀ (d : Deps) (p : ExecuteParams), countHooks (execute d p).2 <= 1) ∧
    (countCalls (execute
        { fetch := fun _ => TransportOutcome.respond false 401 "Unauthorized"
            (some (Jval.obj []))
          catchFn := some (fun _ => HookAction.retry none) }
        { url := "/api/test", method := "GET", op := Op.query
          name := "test", fallback := "failed", headers := [] }).2 = 2 ∧
     countHooks (execute
        { fetch := fun _ => TransportOutcome.respond false 401 "Unauthorized"
            (some (Jval.obj []))
          catchFn := some (fun _ => HookAction.retry none) }
        { url := "/api/test", method := "GET", op := Op.query
          name := "test", fallback := "failed", headers := [] }).2 = 1 ∧
     (execute
        { fetch := fun _ => TransportOutcome.respond false 401 "Unauthorized"
            (some (Jval.obj []))
          catchFn := some (fun _ => HookAction.retry none) }
        { url := "/api/test", method := "GET", op := Op.query
          name := "test", fallback := "failed", headers := [] }).1
       = ExecResult.thrown
          { message := "failed", name := "FetchError.http"
            fetchError := FetchError.http 401 "Unauthorized" "failed" none }) := by
  refine ⟨?_, ?_, ?_, ?_, rfl, rfl, rfl⟩
  · intro d p n
    rw [executeFrom_of_isRetry d { p with isRetry := true } n rfl,
      executeRetried_log]
    exact attemptStep_hooks d { p with isRetry := true } n
  · intro d p n e log n' hR ha
    rw [executeFrom_of_isRetry d p n hR]
    simp [executeRetried, ha]
  · intro d p
    exact executeFrom_calls_le d p 0
  · intro d p
    exact executeFrom_hooks_le d p 0

/-- Witness for C1's escalation conjunct: a retry-flagged attempt against
a failing transport escalates its HTTP error immediately, with no hook
invocation in its log. -/
theorem execute_retry_bounded_witness :
    executeFrom
        { fetch := fun _ => TransportOutcome.respond false 401 "Unauthorized"
            (some (Jval.obj []))
          catchFn := some (fun _ => HookAction.retry none) }
        { url := "/api/test", method := "GET", op := Op.query
          name := "test", fallback := "failed", headers := []
          isRetry := true } 0
      = (ExecResult.thrown
          { message := "failed", name := "FetchError.http"
            fetchError := FetchError.http 401 "Unauthorized" "failed" none },
        [Ev.transportCall
          { url := "/api/test", method := "GET", headers := [], body := none
            credentials := "include", cache := "no-store" },
         Ev.bodyRead], 1) :=
  execute_retry_bounded.2.1
    { fetch := fun _ => TransportOutcome.respond false 401 "Unauthorized"
        (some (Jval.obj []))
      catchFn := some (fun _ => HookAction.retry none) }
    { url := "/api/test", method := "GET", op := Op.query
      name := "test", fallback := "failed", headers := []
      isRetry := true } 0
    (FetchError.http 401 "Unauthorized" "failed" none) _ 1 rfl rfl

/-- C2: with an observability sink configured, every attempt of an
execution hands the sink exactly one span (span count equals transport
call count); the span carrying a Classified Error is emitted before the
catch handler is invoked with that error and before the error is thrown;
spans with an error have `ok = false` and carry a status exactly when a
response was obtained (no status only for a Network error), while spans
without an error have `ok = true`. -/
theorem execute_span_per_attempt (d : Deps) (p : ExecuteParams)
    (ho : resolvedOnSpan d p = some ()) :
    countSpans (execute d p).2 = countCalls (execute d p).2 ∧
    (∀ pre e post, (execute d p).2 = pre ++ Ev.hookInvoked e :: post →
      ∃ sp, Ev.span sp ∈ pre ∧ sp.ok = false ∧ sp.error = some e) ∧
    (∀ err, (execute d p).1 = ExecResult.thrown err →
      ∃ sp, Ev.span sp ∈ (execute d p).2 ∧ sp.ok = false ∧
        sp.error = some err.fetchError) ∧
    (∀ sp, Ev.span sp ∈ (execute d p).2 →
      (sp.error = none → sp.ok = true) ∧
      (∀ e, sp.error = some e → sp.ok = false ∧
        ((sp.status = none) ↔ ∃ m, e = FetchError.network m))) := by
  refine ⟨?_, ?_, ?_, ?_⟩
  · exact executeFrom_spans_eq_calls d p 0 ho
  · intro pre e post hsplit
    exact executeFrom_hook_ordering d p 0 ho pre post e hsplit
  · intro err ht
    exact executeFrom_thrown_span d p 0 ho err ht
  · intro sp hmem
    exact executeFrom_span_fields d p 0 sp hmem

/-- Witness for C2 at the unconditional-retry 401 scenario with a sink:
both attempts emit their spans — two spans for two transport calls. -/
theorem execute_span_per_attempt_witness :
    countSpans (execute
        { fetch := fun _ => TransportOutcome.respond false 401 "Unauthorized"
            (some (Jval.obj []))
          onSpan := some ()
          catchFn := some (fun _ => HookAction.retry none) }
        { url := "/api/test", method := "GET", op := Op.query
          name := "test", fallback := "failed", headers := [] }).2
      = countCalls (execute
        { fetch := fun _ => TransportOutcome.respond false 401 "Unauthorized"
            (some (Jval.obj []))
          onSpan := some ()
          catchFn := some (fun _ => HookAction.retry none) }
        { url := "/api/test", method := "GET", op := Op.query
          name := "test", fallback := "failed", headers := [] }).2 ∧
    countSpans (execute
        { fetch := fun _ => TransportOutcome.respond false 401 "Unauthorized"
            (some (Jval.obj []))
          onSpan := some ()
          catchFn := some (fun _ => HookAction.retry none) }
        { url := "/api/test", method := "GET", op := Op.query
          name := "test", fallback := "failed", headers := [] }).2 = 2 :=
  ⟨(execute_span_per_attempt
      { fetch := fun _ => TransportOutcome.respond false 401 "Unauthorized"
          (some (Jval.obj []))
        onSpan := some ()
        catchFn := some (fun _ => HookAction.retry none) }
      { url := "/api/test", method := "GET", op := Op.query
        name := "test", fallback := "failed", headers := [] } rfl).1,
   rfl⟩
